import Mathlib

/-!
Verification of the Thought Translator repository (a browser text-rewriting
assistant).  The development shallowly embeds the three source files:

* `types.ts` — the `Tone` enumeration and the `HistoryEntry` record;
* `services/geminiService.ts` — `translateThought`, which guards on blank
  input, opens a streaming call to the external generative-text service,
  accumulates the non-empty fragments while forwarding each one to the
  `onChunk` callback, and returns the trimmed accumulation (any error is
  rethrown as one fixed user-facing message);
* `App.tsx` — the interaction controller `handleSubmit` plus the history
  handlers `handleDeleteHistory` / `handleClearHistory` and the
  localStorage load/save effects.

Effects are made explicit: the external stream is a value of type
`ServiceResponse`, calls to the `onChunk` callback are collected as a trace
(`delivered`), clipboard writes are a list, and the clock is a `Nat`
argument (milliseconds).
-/

namespace ThoughtTranslator

/-- Model of JavaScript `String.prototype.trim` on the character list:
drop whitespace from the front, then from the back.  (Core `String.trim`
is extensionally the same operation but is defined by well-founded
recursion on byte positions, which the kernel cannot evaluate; this
structural version is used so concrete instances reduce.) -/
def trimChars (l : List Char) : List Char :=
  ((l.dropWhile Char.isWhitespace).reverse.dropWhile Char.isWhitespace).reverse

/-- JS `text.trim()` lifted to `String`. -/
def jsTrim (s : String) : String :=
  ⟨trimChars s.data⟩

/-- `types.ts`: `enum Tone`. -/
inductive Tone where
  | Friendly
  | Humorous
  | Professional
deriving DecidableEq, Repr

/-- `types.ts`: `interface HistoryEntry`.  `id` is the ISO rendering of the
creation instant, `timestamp` the instant itself (`Date.now()`), both in
milliseconds. -/
structure HistoryEntry where
  id : String
  input : String
  output : String
  tone : Tone
  outputLanguage : String
  timestamp : Nat
deriving DecidableEq, Repr

/-- The external generative-text service's behaviour on one call
(`ai.models.generateContentStream`): either a stream of chunks — each
chunk's `.text` field may be absent (`none`) or any string — or a thrown
error carrying its raw cause. -/
inductive ServiceResponse where
  | ok (chunks : List (Option String))
  | err (cause : String)
deriving DecidableEq, Repr

/-- Result of one `translateThought` call.  `delivered` is the trace of
arguments passed to the `onChunk` callback, in call order. -/
inductive TranslateOutcome where
  | success (result : String) (delivered : List String)
  | failure (message : String)
deriving DecidableEq, Repr

/-- `geminiService.ts` line 50: the single fixed message rethrown for any
error of the streaming call. -/
def serviceErrorMessage : String :=
  "Sorry, something went wrong while translating. Please try again."

/-- The `for await (const chunk of responseStream)` loop of
`translateThought`: skip chunks whose `.text` is absent or empty;
otherwise append to the accumulator and invoke `onChunk`.
`onChunkDefined` records whether the caller supplied a callable `onChunk`
(`App.tsx` does not); invoking an undefined callback throws a `TypeError`,
modelled as `Except.error`. -/
def runStreamLoop (onChunkDefined : Bool) :
    List (Option String) → String → List String → Except Unit (String × List String)
  | [], acc, tr => .ok (acc, tr)
  | c :: rest, acc, tr =>
    match c with
    | none => runStreamLoop onChunkDefined rest acc tr
    | some s =>
      if s = "" then runStreamLoop onChunkDefined rest acc tr
      else if onChunkDefined then runStreamLoop onChunkDefined rest (acc ++ s) (tr ++ [s])
      else .error ()

/-- `geminiService.ts`: `translateThought(text, tone, language, onChunk)`.
Returns the outcome together with a flag recording whether the external
service was contacted.  The blank-input guard returns `""` before the
service call; the `try`/`catch` maps any thrown error (service failure or
the `TypeError` from an undefined `onChunk`) to `serviceErrorMessage`;
otherwise the trimmed accumulation is returned. -/
def translateThoughtRun (text : String) (tone : Tone) (language : String)
    (onChunkDefined : Bool) (resp : ServiceResponse) : TranslateOutcome × Bool :=
  if jsTrim text = "" then (.success "" [], false)
  else
    match resp with
    | .err _ => (.failure serviceErrorMessage, true)
    | .ok chunks =>
      match runStreamLoop onChunkDefined chunks "" [] with
      | .ok (full, tr) => (.success (jsTrim full) tr, true)
      | .error _ => (.failure serviceErrorMessage, true)

/-- The outcome component of `translateThoughtRun`. -/
def translateThought (text : String) (tone : Tone) (language : String)
    (onChunkDefined : Bool) (resp : ServiceResponse) : TranslateOutcome :=
  (translateThoughtRun text tone language onChunkDefined resp).1

/-- Spec-side definition (for the stream-faithfulness claim): the non-empty
fragments of the stream, in arrival order. -/
def deliveredFragments (chunks : List (Option String)) : List String :=
  chunks.filterMap (fun c =>
    match c with
    | some s => if s = "" then none else some s
    | none => none)

/-- Spec-side definition: concatenation of a fragment list in delivery
order. -/
def concatFragments : List String → String
  | [] => ""
  | s :: rest => s ++ concatFragments rest

/-- Models the external `Date.prototype.toISOString` applied to the instant
`t` (milliseconds): the canonical decimal/ISO rendering of a millisecond
timestamp, which is deterministic and injective on millisecond values.  We
render the decimal digits of `t` (big-endian) as characters. -/
def isoString (t : Nat) : String :=
  ⟨((Nat.digits 10 t).reverse.map (fun d => Char.ofNat (48 + d)))⟩

/-- Decoder for `isoString`, used only to establish injectivity. -/
def isoDecode (s : String) : Nat :=
  Nat.ofDigits 10 ((s.data.map (fun c => c.toNat - 48)).reverse)

/-- `App.tsx`, `handleSubmit` lines 183-190: the history entry built after
a successful rewrite.  `id` and `timestamp` are both read from the clock at
completion time. -/
def mkEntry (now : Nat) (input output : String) (tone : Tone) (lang : String) :
    HistoryEntry :=
  { id := isoString now, input := input, output := output, tone := tone,
    outputLanguage := lang, timestamp := now }

/-- The `App` component state relevant to the verified claims, plus the
explicit effect logs.  `pending` models the in-flight `translateThought`
call (the arguments captured at submission); `clipboardWrites` logs
`navigator.clipboard.writeText` calls.  The speech-recognition and
speech-synthesis flags, which `handleSubmit` merely switches off, are
outside the verified claims and are not carried. -/
structure AppState where
  input : String
  output : String
  tone : Tone
  outputLanguage : String
  isLoading : Bool
  history : List HistoryEntry
  error : Option String
  copiedId : Option String
  clipboardWrites : List String
  pending : Option (String × Tone × String)
deriving DecidableEq, Repr

/-- `App.tsx` line 195: the fixed string shown in the output area after a
failed rewrite (distinct from the service's own fixed error message). -/
def failureOutput : String :=
  "Sorry, something went wrong. Please try again."

/-- `handleSubmit`, synchronous prefix (lines 156-161): reject blank input
or an in-flight rewrite, otherwise mark loading, reset the error, clear the
displayed output, and capture the call's arguments. -/
def submitStart (s : AppState) : AppState :=
  if jsTrim s.input = "" ∨ s.isLoading = true then s
  else
    { s with isLoading := true, error := none, output := "",
             pending := some (s.input, s.tone, s.outputLanguage) }

/-- `handleSubmit`, continuation after the awaited call resolves (lines
172-198).  The call is `translateThought(input, tone, outputLanguage)` —
`App.tsx` line 173 passes no `onChunk` callback, hence
`onChunkDefined := false`.  On success: display the result, auto-copy it to
the clipboard when non-empty, and prepend the new history entry.  On
failure: record the error message and show the fixed failure string.  The
`finally` clears the loading flag. -/
def submitFinish (s : AppState) (now : Nat) (resp : ServiceResponse) : AppState :=
  match s.pending with
  | none => s
  | some (inp, t, l) =>
    match translateThought inp t l false resp with
    | .success result _ =>
      { s with output := result,
               clipboardWrites :=
                 if result = "" then s.clipboardWrites
                 else s.clipboardWrites ++ [result],
               copiedId := if result = "" then s.copiedId else some "current",
               history := mkEntry now inp result t l :: s.history,
               isLoading := false, pending := none }
    | .failure msg =>
      { s with error := some msg, output := failureOutput,
               isLoading := false, pending := none }

/-- One complete run of `handleSubmit`: the guard, then the submission and
its resolution at clock value `now` against service behaviour `resp`. -/
def handleSubmit (s : AppState) (now : Nat) (resp : ServiceResponse) : AppState :=
  if jsTrim s.input = "" ∨ s.isLoading = true then s
  else submitFinish (submitStart s) now resp

/-- `App.tsx` lines 214-216: delete one history entry by identifier. -/
def handleDeleteHistory (history : List HistoryEntry) (id : String) :
    List HistoryEntry :=
  history.filter (fun entry => entry.id != id)

/-- `App.tsx` lines 218-226: the two-press clear.  The first press only
arms the confirmation; the confirmed press empties the history.  Returns
the new history and the new `confirmClear` flag. -/
def handleClearHistory (history : List HistoryEntry) (confirmClear : Bool) :
    List HistoryEntry × Bool :=
  if confirmClear = false then (history, true)
  else ([], false)

/-- The history-store mutations the claims quantify over: a successful
rewrite completing at clock value `now` (the append of `handleSubmit`), a
deletion, and a confirmed clear. -/
inductive HistoryEvent where
  | append (now : Nat) (input output : String) (tone : Tone) (lang : String)
  | remove (id : String)
  | clear
deriving DecidableEq, Repr

/-- Effect of one history-store event, built from the corresponding
`App.tsx` handlers. -/
def applyEvent (h : List HistoryEntry) : HistoryEvent → List HistoryEntry
  | .append now inp outp t l => mkEntry now inp outp t l :: h
  | .remove id => handleDeleteHistory h id
  | .clear => (handleClearHistory h true).1

/-- Run a sequence of history-store events from a starting state. -/
def runTrace (h : List HistoryEntry) : List HistoryEvent → List HistoryEntry
  | [] => h
  | ev :: rest => runTrace (applyEvent h ev) rest

/-- The clock values of the append events of a trace, in order. -/
def appendTimes : List HistoryEvent → List Nat
  | [] => []
  | .append now _ _ _ _ :: rest => now :: appendTimes rest
  | .remove _ :: rest => appendTimes rest
  | .clear :: rest => appendTimes rest

/-- The durable-storage document under the fixed key
`"translationHistory"`: absent, unparsable, or a serialized entry list. -/
inductive StoredDoc where
  | absent
  | corrupt
  | doc (entries : List HistoryEntry)
deriving DecidableEq, Repr

/-- `App.tsx` lines 78-87: the mount-time load.  `localStorage.getItem`
returning `null` leaves the initial empty history; a `JSON.parse` failure
is caught (logged) and likewise leaves the empty history; otherwise the
parsed document becomes the history.  Totality of this function is the
embedding of "never raises an error to the caller". -/
def loadHistory : StoredDoc → List HistoryEntry
  | .absent => []
  | .corrupt => []
  | .doc l => l

/-- `App.tsx` lines 90-96: the save effect serializes the full current
history to storage after every change. -/
def persistHistory (h : List HistoryEntry) : StoredDoc :=
  .doc h

/-- A quiescent controller state with the given input, used to instantiate
theorems at concrete states. -/
def idleState (input : String) : AppState :=
  { input := input, output := "", tone := .Friendly, outputLanguage := "English",
    isLoading := false, history := [], error := none, copiedId := none,
    clipboardWrites := [], pending := none }

/-- C1: for every input whose trim is empty, `translateThought` returns the
empty string with no fragment delivered, the external service is not
contacted, and `handleSubmit` leaves the controller state — in particular
the history — completely unchanged. -/
theorem whitespace_input_short_circuits (text : String) (tone : Tone)
    (language : String) (d : Bool) (resp : ServiceResponse)
    (hws : jsTrim text = "") :
    translateThoughtRun text tone language d resp = (.success "" [], false) ∧
    ∀ (s : AppState) (now : Nat) (r : ServiceResponse),
      s.input = text → handleSubmit s now r = s := by
  constructor
  · simp [translateThoughtRun, hws]
  · intro s now r hs
    simp [handleSubmit, hs, hws]

/-- Witness for `whitespace_input_short_circuits` at the two-space input. -/
theorem whitespace_input_short_circuits_witness :
    translateThoughtRun "  " .Friendly "English" false (.ok [some "Hi"]) =
      (.success "" [], false) :=
  (whitespace_input_short_circuits "  " .Friendly "English" false
    (.ok [some "Hi"]) (by decide)).1

/-- C2: the displayed output is never grown fragment-by-fragment.
`App.tsx` line 173 calls `translateThought(input, tone, outputLanguage)`
without the required `onChunk` callback, so no fragment can reach the
display; when the stream delivers a non-empty fragment, the service's call
to the undefined callback throws, and the whole run ends with the fixed
failure output instead of the streamed text.  Evaluated here at input
`"hello"` with a stream delivering the single fragment `"Hi"`. -/
theorem streaming_display_never_updates :
    handleSubmit (idleState "hello") 0 (.ok [some "Hi"]) =
      { idleState "hello" with error := some serviceErrorMessage,
                               output := failureOutput } := by
  decide

/-- C7: after `remove(id)`, loading the persisted state yields no entry
with identifier `id`; `remove` is a no-op when `id` is absent; and loading
after a confirmed `clear()` yields the empty collection. -/
theorem remove_clear_then_load (h : List HistoryEntry) (id : String) :
    (∀ e ∈ loadHistory (persistHistory (handleDeleteHistory h id)), e.id ≠ id) ∧
    ((∀ e ∈ h, e.id ≠ id) → handleDeleteHistory h id = h) ∧
    loadHistory (persistHistory (handleClearHistory h true).1) = [] := by
  refine ⟨?_, ?_, rfl⟩
  · intro e he
    simp only [loadHistory, persistHistory, handleDeleteHistory,
      List.mem_filter, bne_iff_ne, ne_eq, decide_eq_true_eq] at he
    exact he.2
  · intro hall
    exact List.filter_eq_self.mpr fun e he => by
      simpa [bne_iff_ne] using hall e he

/-- Witness for `remove_clear_then_load`: clearing the empty store and
loading yields the empty collection. -/
theorem remove_clear_then_load_witness :
    loadHistory (persistHistory (handleClearHistory [] true).1) = [] :=
  (remove_clear_then_load [] "x").2.2

/-- C8: the startup load is total — the embedding of "never raises to the
caller" — and starts empty on an absent or unparsable document, otherwise
returning the deserialized document. -/
theorem loadHistory_never_fails :
    loadHistory .absent = [] ∧ loadHistory .corrupt = [] ∧
    ∀ l, loadHistory (.doc l) = l :=
  ⟨rfl, rfl, fun _ => rfl⟩

/-- C9: while a rewrite is in flight (`isLoading`), a new submission is
rejected as a strict no-op: neither the synchronous submission prefix nor
a whole submission run changes any part of the state, so the in-flight
call (`pending`) is never superseded and no second rewrite starts. -/
theorem inflight_submit_rejected (s : AppState) (h : s.isLoading = true) :
    submitStart s = s ∧
    ∀ (now : Nat) (resp : ServiceResponse), handleSubmit s now resp = s := by
  constructor
  · simp [submitStart, h]
  · intro now resp
    simp [handleSubmit, h]

/-- Witness for `inflight_submit_rejected` at a loading state. -/
theorem inflight_submit_rejected_witness :
    submitStart { (idleState "hi") with
                  isLoading := true,
                  pending := some ("hi", Tone.Friendly, "English") } =
      { (idleState "hi") with
        isLoading := true,
        pending := some ("hi", Tone.Friendly, "English") } :=
  (inflight_submit_rejected _ rfl).1

/-- The accumulator/trace invariant of the streaming loop when a real
`onChunk` callback is supplied: the loop succeeds, the accumulator collects
the concatenation of the non-empty fragments, and the callback trace
collects exactly those fragments in arrival order. -/
theorem runStreamLoop_ok (chunks : List (Option String)) :
    ∀ (acc : String) (tr : List String),
      runStreamLoop true chunks acc tr =
        .ok (acc ++ concatFragments (deliveredFragments chunks),
             tr ++ deliveredFragments chunks) := by
  induction chunks with
  | nil =>
    intro acc tr
    simp [runStreamLoop, deliveredFragments, concatFragments]
  | cons c rest ih =>
    intro acc tr
    cases c with
    | none =>
      simp [runStreamLoop, deliveredFragments, ih]
    | some s =>
      by_cases hs : s = ""
      · subst hs
        simp [runStreamLoop, deliveredFragments, ih]
      · simp [runStreamLoop, hs, deliveredFragments, concatFragments, ih,
              String.append_assoc]

/-- C3: a successful `translateThought` call (non-blank input, supplied
callback) returns the trim of the concatenation, in delivery order, of
exactly the fragments passed to `onChunk`; the delivered fragments are the
stream's non-empty fragments, as they arrive, in order, none dropped or
reordered (`deliveredFragments`). -/
theorem translateThought_stream_faithful (text : String) (tone : Tone)
    (language : String) (chunks : List (Option String))
    (hws : jsTrim text ≠ "") :
    translateThoughtRun text tone language true (.ok chunks) =
      (.success (jsTrim (concatFragments (deliveredFragments chunks)))
        (deliveredFragments chunks), true) := by
  have hnil : ∀ t : String, "" ++ t = t := by
    intro t
    obtain ⟨l⟩ := t
    rfl
  simp [translateThoughtRun, hws, runStreamLoop_ok, hnil]

/-- Witness for `translateThought_stream_faithful` on a four-chunk
stream. -/
theorem translateThought_stream_faithful_witness :
    translateThoughtRun "hi" .Friendly "English" true
        (.ok [some "Hi", none, some "", some "!"]) =
      (.success
        (jsTrim (concatFragments
          (deliveredFragments [some "Hi", none, some "", some "!"])))
        (deliveredFragments [some "Hi", none, some "", some "!"]), true) :=
  translateThought_stream_faithful "hi" .Friendly "English"
    [some "Hi", none, some "", some "!"] (by decide)

/-- C4: after a successful rewrite, the history equals the new entry —
identifier and timestamp taken from the completion instant, `input`,
`tone`, `outputLanguage` taken from the submitted request and `output`
from the returned result — consed onto the previous history: exactly one
new entry, positioned first, previous entries unchanged. -/
theorem success_appends_history_entry (s : AppState) (now : Nat)
    (resp : ServiceResponse) (result : String) (delivered : List String)
    (hload : s.isLoading = false) (hin : jsTrim s.input ≠ "")
    (hok : translateThought s.input s.tone s.outputLanguage false resp =
      .success result delivered) :
    (handleSubmit s now resp).history =
      { id := isoString now, input := s.input, output := result,
        tone := s.tone, outputLanguage := s.outputLanguage,
        timestamp := now } :: s.history := by
  simp [handleSubmit, submitStart, submitFinish, hload, hin, hok, mkEntry]

/-- Witness for `success_appends_history_entry`: a stream with no chunks
succeeds with the empty result and appends the matching entry. -/
theorem success_appends_history_entry_witness :
    (handleSubmit (idleState "hi") 0 (.ok [])).history =
      { id := isoString 0, input := "hi", output := "", tone := .Friendly,
        outputLanguage := "English", timestamp := 0 }
        :: (idleState "hi").history :=
  success_appends_history_entry (idleState "hi") 0 (.ok []) "" []
    rfl (by decide) (by decide)

/-- Any failure outcome of `translateThought` carries the one fixed
user-facing message, independent of the raw cause. -/
theorem failure_message_fixed (text : String) (tone : Tone)
    (language : String) (d : Bool) (resp : ServiceResponse) (msg : String)
    (hfail : translateThought text tone language d resp = .failure msg) :
    msg = serviceErrorMessage := by
  unfold translateThought translateThoughtRun at hfail
  by_cases hws : jsTrim text = ""
  · simp [hws] at hfail
  · cases resp with
    | err cause =>
      simp [hws] at hfail
      exact hfail.symm
    | ok chunks =>
      simp only [hws, if_neg, ite_false] at hfail
      cases hloop : runStreamLoop d chunks "" [] with
      | ok v =>
        rw [hloop] at hfail
        simp at hfail
      | error e =>
        rw [hloop] at hfail
        simp at hfail
        exact hfail.symm

/-- C5: a failing rewrite surfaces the single fixed service message
(whatever the raw cause), creates no history entry, sets the displayed
output to the fixed failure string, and records the fixed message as the
error. -/
theorem failed_rewrite_no_history (s : AppState) (now : Nat)
    (resp : ServiceResponse) (msg : String)
    (hload : s.isLoading = false) (hin : jsTrim s.input ≠ "")
    (hfail : translateThought s.input s.tone s.outputLanguage false resp =
      .failure msg) :
    msg = serviceErrorMessage ∧
    (handleSubmit s now resp).history = s.history ∧
    (handleSubmit s now resp).output = failureOutput ∧
    (handleSubmit s now resp).error = some serviceErrorMessage := by
  have hm := failure_message_fixed s.input s.tone s.outputLanguage false
    resp msg hfail
  subst hm
  refine ⟨rfl, ?_, ?_, ?_⟩ <;>
    simp [handleSubmit, submitStart, submitFinish, hload, hin, hfail]

/-- Witness for `failed_rewrite_no_history` at a thrown service error. -/
theorem failed_rewrite_no_history_witness :
    (handleSubmit (idleState "hey") 5 (.err "boom")).history =
      (idleState "hey").history :=
  (failed_rewrite_no_history (idleState "hey") 5 (.err "boom")
    serviceErrorMessage rfl (by decide) (by decide)).2.1

/-- C10: a successful rewrite whose returned text is empty still appends a
history entry (with empty `output`), but performs no clipboard write and
leaves the copied-state untouched (`if (result)` is false for the empty
string). -/
theorem empty_result_entry_no_clipboard (s : AppState) (now : Nat)
    (resp : ServiceResponse) (delivered : List String)
    (hload : s.isLoading = false) (hin : jsTrim s.input ≠ "")
    (hok : translateThought s.input s.tone s.outputLanguage false resp =
      .success "" delivered) :
    (handleSubmit s now resp).history =
      { id := isoString now, input := s.input, output := "",
        tone := s.tone, outputLanguage := s.outputLanguage,
        timestamp := now } :: s.history ∧
    (handleSubmit s now resp).clipboardWrites = s.clipboardWrites ∧
    (handleSubmit s now resp).copiedId = s.copiedId := by
  refine ⟨?_, ?_, ?_⟩ <;>
    simp [handleSubmit, submitStart, submitFinish, hload, hin, hok, mkEntry]

/-- Witness for `empty_result_entry_no_clipboard`: an all-empty stream. -/
theorem empty_result_entry_no_clipboard_witness :
    (handleSubmit (idleState "yo") 7 (.ok [none])).clipboardWrites =
      (idleState "yo").clipboardWrites :=
  (empty_result_entry_no_clipboard (idleState "yo") 7 (.ok [none]) []
    rfl (by decide) (by decide)).2.1

/-- Decimal digit characters decode back to the digit. -/
theorem digitChar_roundtrip (d : Nat) (hd : d < 10) :
    (Char.ofNat (48 + d)).toNat - 48 = d := by
  interval_cases d <;> rfl

/-- `isoDecode` is a left inverse of `isoString`. -/
theorem isoDecode_isoString (t : Nat) : isoDecode (isoString t) = t := by
  unfold isoDecode isoString
  show Nat.ofDigits 10
      ((((Nat.digits 10 t).reverse.map (fun d => Char.ofNat (48 + d))).map
        (fun c => c.toNat - 48)).reverse) = t
  rw [List.map_map]
  have hmap : (Nat.digits 10 t).reverse.map
      ((fun c : Char => c.toNat - 48) ∘ (fun d => Char.ofNat (48 + d))) =
      (Nat.digits 10 t).reverse := by
    rw [List.map_congr_left, List.map_id]
    intro d hd
    exact digitChar_roundtrip d
      (Nat.digits_lt_base (by norm_num) (List.mem_reverse.mp hd))
  rw [hmap, List.reverse_reverse, Nat.ofDigits_digits]

/-- The rendering of creation instants to identifiers is injective:
distinct millisecond timestamps yield distinct identifier strings. -/
theorem isoString_injective : Function.Injective isoString :=
  Function.LeftInverse.injective isoDecode_isoString

/-- Invariant of the history store under any event sequence: every entry's
identifier is the rendering of its creation instant, and — provided the
append instants still to come are strictly increasing and later than every
stored timestamp — stored timestamps stay pairwise distinct. -/
theorem runTrace_invariant (tr : List HistoryEvent) :
    ∀ h0 : List HistoryEntry,
      (∀ e ∈ h0, e.id = isoString e.timestamp) →
      h0.Pairwise (fun a b => a.timestamp ≠ b.timestamp) →
      (∀ e ∈ h0, ∀ t ∈ appendTimes tr, e.timestamp < t) →
      (appendTimes tr).Pairwise (· < ·) →
      (∀ e ∈ runTrace h0 tr, e.id = isoString e.timestamp) ∧
      (runTrace h0 tr).Pairwise (fun a b => a.timestamp ≠ b.timestamp) := by
  induction tr with
  | nil =>
    intro h0 hid hdist _ _
    exact ⟨hid, hdist⟩
  | cons ev rest ih =>
    intro h0 hid hdist hfut hsort
    cases ev with
    | append now inp outp t l =>
      have hsort' := List.pairwise_cons.mp hsort
      refine ih (mkEntry now inp outp t l :: h0) ?_ ?_ ?_ hsort'.2
      · intro e he
        rcases List.mem_cons.mp he with he | he
        · subst he; rfl
        · exact hid e he
      · refine List.pairwise_cons.mpr ⟨?_, hdist⟩
        intro b hb
        exact ne_of_gt (hfut b hb now (by simp [appendTimes]))
      · intro e he u hu
        rcases List.mem_cons.mp he with he | he
        · subst he; exact hsort'.1 u hu
        · exact hfut e he u (by simp [appendTimes, hu])
    | remove id =>
      refine ih (handleDeleteHistory h0 id) ?_ ?_ ?_ hsort
      · intro e he
        exact hid e (List.mem_of_mem_filter he)
      · exact hdist.sublist (List.filter_sublist h0)
      · intro e he u hu
        exact hfut e (List.mem_of_mem_filter he) u hu
    | clear =>
      refine ih [] ?_ ?_ ?_ hsort <;> simp

/-- The C6 unconditional uniqueness fails on the code: two successful
rewrites completing at the same millisecond instant (here both at clock
value 0) receive the same ISO identifier, so the store holds two entries
with equal identifiers. -/
theorem historyIds_clash_at_equal_times :
    ¬ (runTrace []
        [.append 0 "first thought" "out1" .Friendly "English",
         .append 0 "second thought" "out2" .Friendly "English"]).Pairwise
        (fun a b => a.id ≠ b.id) := by
  intro hp
  simp only [runTrace, applyEvent, List.pairwise_cons] at hp
  exact hp.1 _ (List.mem_singleton.mpr rfl) rfl

/-- C6 (amended): in every state reached by successful rewrites, deletions
and clears, entry identifiers are pairwise distinct provided the
successful rewrites complete at strictly increasing clock instants (the
identifier has only millisecond resolution); and every identifier is the
rendering of its entry's creation instant. -/
theorem historyIds_unique_of_increasing_times (tr : List HistoryEvent)
    (hsort : (appendTimes tr).Pairwise (· < ·)) :
    (runTrace [] tr).Pairwise (fun a b => a.id ≠ b.id) ∧
    ∀ e ∈ runTrace [] tr, e.id = isoString e.timestamp := by
  obtain ⟨hid, hdist⟩ :=
    runTrace_invariant tr [] (by simp) (by simp) (by simp) hsort
  refine ⟨?_, hid⟩
  refine hdist.imp_of_mem ?_
  intro a b ha hb hne heq
  exact hne (isoString_injective (by rw [← hid a ha, ← hid b hb, heq]))

/-- Witness for `historyIds_unique_of_increasing_times` on a two-append
trace at instants 0 and 1. -/
theorem historyIds_unique_of_increasing_times_witness :
    (runTrace []
        [.append 0 "a" "x" .Friendly "English",
         .append 1 "b" "y" .Humorous "French"]).Pairwise
      (fun a b => a.id ≠ b.id) :=
  (historyIds_unique_of_increasing_times
    [.append 0 "a" "x" .Friendly "English",
     .append 1 "b" "y" .Humorous "French"] (by decide)).1

end ThoughtTranslator
